import Mathlib

/-!
# Verification of the backend query dispatcher (`zipper/helper/requests.go`)

Shallow embedding of the dispatcher core: the round-robin replica picker
(`pickServer`), the single-attempt request executor (`doRequest`) and the
retry/failover controller (`DoQuery`) of type `HttpQuery`.

Modelling conventions:
* The only mutable field of the Go `HttpQuery` struct is the `uint64`
  selection counter (`counter`), mutated through `atomic.AddUint64`; it is
  threaded explicitly as a `Nat` kept below `2^64`, with the wraparound of
  `AddUint64` written as `% W64`.  All other fields are immutable after
  `NewHttpQuery` and live in the `HttpQuery` structure.
* External collaborators (`url.Parse`, `http.NewRequest`, the `limiter`,
  `http.Client.Do`, `ioutil.ReadAll`) are oracles: a `TryEnv` records the
  outcome each of those calls produces during one attempt.  The `uri` and `body`
  arguments of the Go functions flow only into `url.Parse` and
  `http.NewRequest`, whose outcomes the oracle fields `parseResult` and
  `newRequestResult` already carry, so they are not repeated as parameters.
* Calls with observable resource effects (setting a header on the request,
  `limiter.Enter`, `client.Do`, `limiter.Leave`, reading the body) are
  recorded in an event trace, in the order the Go code performs them.
* In Go, `http.NewRequest` returns a nil request exactly when it returns a
  non-nil error; dereferencing the nil request (as `req.Header.Set` then
  does) is a runtime panic, modelled by the distinguished result
  `DoReqResult.panic` (and, propagated, by `DoQueryResult.panicked`).
* `errors.Errors` (the aggregate, an external package) is an ordered
  append-only list, modelled as `List GoError`; the Go `(*ServerResponse,
  *errors.Errors)` return pair is modelled with `Option` for nil pointers.
-/

/-- The `uint64` modulus: `atomic.AddUint64` wraps modulo `2^64`. -/
def W64 : Nat := 2 ^ 64

/-- Error values flowing through the dispatcher.  `errNotFound`,
`failedToFetch` (from `types.ErrFailedToFetchFmt`, carrying the group name
and status code) and `maxTriesExceeded` are produced by the dispatcher
itself; the remaining constructors stand for errors produced by the
external collaborators and carried through unchanged. -/
inductive GoError where
  | parseError (msg : String)
  | requestError (msg : String)
  | limiterError (msg : String)
  | contextCanceled
  | transportError (msg : String)
  | readError (msg : String)
  | errNotFound
  | failedToFetch (group : String) (status : Nat)
  | maxTriesExceeded
deriving DecidableEq

/-- Observable effects of one `doRequest` call, in program order. -/
inductive Event where
  | headerSet (key value : String)
  | enter (name : String)
  | netCall
  | leave (name : String)
  | bodyRead
deriving DecidableEq

/-- `ServerResponse`: replica identity plus raw payload bytes. -/
structure ServerResponse where
  server : String
  response : List Nat
deriving DecidableEq

/-- The immutable configuration of one dispatcher (`HttpQuery` in Go),
as set up by `NewHttpQuery`.  The mutable `counter` field is threaded
separately as explicit state. -/
structure HttpQuery where
  groupName : String
  servers : List String
  maxTries : Nat
  encoding : String
deriving DecidableEq

/-- Oracle for the outcomes of the external calls one attempt performs. -/
structure TryEnv where
  /-- Outcome of `url.Parse(server + uri)`; `ok` carries `u.String()`. -/
  parseResult : Except GoError String
  /-- Outcome of `http.NewRequest("GET", u.String(), reader)`; on `error`
  the returned request is nil. -/
  newRequestResult : Except GoError Unit
  /-- Outcome of `c.limiter.Enter(ctx, c.groupName)`. -/
  enterResult : Except GoError Unit
  /-- Outcome of `c.client.Do(req.WithContext(ctx))`; `ok` carries the
  response status code. -/
  doResult : Except GoError Nat
  /-- Outcome of `ioutil.ReadAll(resp.Body)`. -/
  readResult : Except GoError (List Nat)

/-- Result of one `doRequest` call: a runtime panic, an error return, or a
successful `ServerResponse`. -/
inductive DoReqResult where
  | panic
  | err (e : GoError)
  | ok (r : ServerResponse)
deriving DecidableEq

/-- `pickServer`: round-robin replica selection.  With a single replica it
returns it without touching the counter; otherwise it increments the
counter atomically (wrapping modulo `2^64`) and indexes the list with the
new value modulo the list length. -/
def pickServer (c : HttpQuery) (counter : Nat) : String × Nat :=
  if c.servers.length = 1 then
    (c.servers.headD "", counter)
  else
    let counter' := (counter + 1) % W64
    let idx := counter' % c.servers.length
    (c.servers.getD idx "", counter')

/-- The results and final counter of `n` successive `pickServer` calls. -/
def pickSeq (c : HttpQuery) : Nat → Nat → List String × Nat
  | 0, counter => ([], counter)
  | n + 1, counter =>
    let p := pickServer c counter
    let rest := pickSeq c n p.2
    (p.1 :: rest.1, rest.2)

/-- `doRequest`: one attempt against one replica.  Follows the Go source
line by line: pick a replica, parse the URL, build the request (note that
the Go code calls `req.Header.Set` *before* checking the construction
error, so a failed construction dereferences the nil request: `panic`),
marshal the context, enter the limiter (keyed by the group name), perform
the round trip, leave the limiter (keyed by the *server* address), then
classify: transport error as-is, 404 to `errNotFound`, other non-200 to
`failedToFetch`, then read the body and return the `ServerResponse`. -/
def doRequest (c : HttpQuery) (env : TryEnv) (counter : Nat) :
    DoReqResult × List Event × Nat :=
  let p := pickServer c counter
  let server := p.1
  let counter' := p.2
  match env.parseResult with
  | .error e => (.err e, [], counter')
  | .ok _u =>
    match env.newRequestResult with
    | .error _e => (.panic, [], counter')
    | .ok _ =>
      match env.enterResult with
      | .error e =>
        (.err e, [Event.headerSet "Accept" c.encoding, Event.enter c.groupName], counter')
      | .ok _ =>
        let evs := [Event.headerSet "Accept" c.encoding, Event.enter c.groupName,
          Event.netCall, Event.leave server]
        match env.doResult with
        | .error e => (.err e, evs, counter')
        | .ok statusCode =>
          if statusCode = 404 then
            (.err GoError.errNotFound, evs, counter')
          else if statusCode ≠ 200 then
            (.err (GoError.failedToFetch c.groupName statusCode), evs, counter')
          else
            match env.readResult with
            | .error e => (.err e, evs ++ [Event.bodyRead], counter')
            | .ok rbody => (.ok ⟨server, rbody⟩, evs ++ [Event.bodyRead], counter')

/-- Result of one `DoQuery` call: the Go pair `(*ServerResponse,
*errors.Errors)` plus the propagated-panic flag, the number of tries
performed, the event trace and the final counter state. -/
structure DoQueryResult where
  response : Option ServerResponse
  errs : Option (List GoError)
  panicked : Bool
  tries : Nat
  trace : List Event
  counter : Nat
deriving DecidableEq

/-- The retry loop of `DoQuery`: `fuel` is the remaining budget, `tryIdx`
the index of the next attempt, `acc` the errors accumulated so far.  On a
failed attempt the error is appended and `ctx.Err()` (oracle `ctxErrAt tryIdx`)
is consulted: if the context is cancelled the loop returns at once without
the sentinel; otherwise it continues.  Exhausting the budget appends the
`maxTriesExceeded` sentinel. -/
def doQueryLoop (c : HttpQuery) (envAt : Nat → TryEnv) (ctxErrAt : Nat → Option GoError) :
    Nat → Nat → List GoError → Nat → List Event → DoQueryResult
  | 0, tryIdx, acc, counter, tr =>
    ⟨none, some (acc ++ [GoError.maxTriesExceeded]), false, tryIdx, tr, counter⟩
  | fuel + 1, tryIdx, acc, counter, tr =>
    let t := doRequest c (envAt tryIdx) counter
    match t.1 with
    | .panic => ⟨none, none, true, tryIdx + 1, tr ++ t.2.1, t.2.2⟩
    | .err er =>
      if (ctxErrAt tryIdx).isSome then
        ⟨none, some (acc ++ [er]), false, tryIdx + 1, tr ++ t.2.1, t.2.2⟩
      else
        doQueryLoop c envAt ctxErrAt fuel (tryIdx + 1) (acc ++ [er]) t.2.2 (tr ++ t.2.1)
    | .ok r => ⟨some r, none, false, tryIdx + 1, tr ++ t.2.1, t.2.2⟩

/-- `DoQuery`: computes the effective try budget exactly as the source
(`maxTries := c.maxTries; if len(c.servers) > maxTries { maxTries =
len(c.servers) }`) and runs the retry loop. -/
def DoQuery (c : HttpQuery) (envAt : Nat → TryEnv) (ctxErrAt : Nat → Option GoError)
    (counter : Nat) : DoQueryResult :=
  let maxTries := if c.servers.length > c.maxTries then c.servers.length else c.maxTries
  doQueryLoop c envAt ctxErrAt maxTries 0 [] counter []

/-! Concrete sample inputs used to evaluate the model. -/

/-- A sample two-replica dispatcher configuration. -/
def sampleQuery : HttpQuery := ⟨"render", ["http://b1", "http://b2"], 1, "pb"⟩

/-- A sample three-replica dispatcher with a configured retry count of 1. -/
def sampleQuery3 : HttpQuery := ⟨"render", ["http://b1", "http://b2", "http://b3"], 1, "pb"⟩

/-- A fully successful try environment: status 200, payload `[7, 8]`. -/
def envOk : TryEnv :=
  ⟨Except.ok "u", Except.ok (), Except.ok (), Except.ok 200, Except.ok [7, 8]⟩

/-- A try environment whose round trip completes with status 404. -/
def env404 : TryEnv :=
  ⟨Except.ok "u", Except.ok (), Except.ok (), Except.ok 404, Except.ok []⟩

/-- A try environment in which the limiter rejects admission. -/
def envDenied : TryEnv :=
  ⟨Except.ok "u", Except.ok (), Except.error (GoError.limiterError "timeout waiting for a slot"),
    Except.ok 200, Except.ok []⟩

/-- A try environment in which `http.NewRequest` fails (and so returns a
nil request). -/
def envNilReq : TryEnv :=
  ⟨Except.ok "u", Except.error (GoError.requestError "invalid request"), Except.ok (),
    Except.ok 200, Except.ok []⟩

/-- A try environment in which the round trip itself fails. -/
def envTransport : TryEnv :=
  ⟨Except.ok "u", Except.ok (), Except.ok (), Except.error (GoError.transportError "refused"),
    Except.ok []⟩

/-! ## Claim theorems: the request executor and the picker fast path -/

/-- C8: for a dispatcher whose group has exactly one replica, every
`pickServer` call returns that replica and leaves the selection counter
unchanged, for any number of calls. -/
theorem C8_single_replica_counter_untouched (c : HttpQuery) (counter n : Nat)
    (h : c.servers.length = 1) :
    pickSeq c n counter = (List.replicate n (c.servers.headD ""), counter) := by
  induction n with
  | zero => simp [pickSeq]
  | succ n ih => simp [pickSeq, pickServer, h, ih, List.replicate_succ]

/-- Witness for C8 at a concrete one-replica dispatcher. -/
theorem C8_single_replica_counter_untouched_witness :
    (⟨"g", ["only"], 3, "pb"⟩ : HttpQuery).servers.length = 1 ∧
    pickSeq ⟨"g", ["only"], 3, "pb"⟩ 5 7 = (List.replicate 5 "only", 7) :=
  ⟨rfl, C8_single_replica_counter_untouched ⟨"g", ["only"], 3, "pb"⟩ 7 5 rfl⟩

/-- C4: classification of a completed round trip in `doRequest`: status 404
yields the dedicated `errNotFound` (distinct from the generic
`failedToFetch`); any other non-200 status yields `failedToFetch` with the
group name and status code; a 200 status whose body read fails yields the
read error; and a 200 status with a fully read body yields a
`ServerResponse` carrying the chosen replica and the payload bytes. -/
theorem C4_round_trip_classification (c : HttpQuery) (env : TryEnv) (counter : Nat)
    (u : String) (status : Nat)
    (hparse : env.parseResult = Except.ok u)
    (hreq : env.newRequestResult = Except.ok ())
    (henter : env.enterResult = Except.ok ())
    (hdo : env.doResult = Except.ok status) :
    (status = 404 → (doRequest c env counter).1 = DoReqResult.err GoError.errNotFound) ∧
    (status ≠ 404 → status ≠ 200 →
      (doRequest c env counter).1 = DoReqResult.err (GoError.failedToFetch c.groupName status)) ∧
    (status = 200 → ∀ e, env.readResult = Except.error e →
      (doRequest c env counter).1 = DoReqResult.err e) ∧
    (status = 200 → ∀ b, env.readResult = Except.ok b →
      (doRequest c env counter).1 = DoReqResult.ok ⟨(pickServer c counter).1, b⟩) ∧
    (∀ g s, GoError.errNotFound ≠ GoError.failedToFetch g s) := by
  refine ⟨?_, ?_, ?_, ?_, fun g s h => GoError.noConfusion h⟩
  · intro h404
    subst h404
    simp [doRequest, hparse, hreq, henter, hdo]
  · intro h404 h200
    simp [doRequest, hparse, hreq, henter, hdo, h404, h200]
  · intro h200 e hread
    subst h200
    simp [doRequest, hparse, hreq, henter, hdo, hread]
  · intro h200 b hread
    subst h200
    simp [doRequest, hparse, hreq, henter, hdo, hread]

/-- Witness for C4: the 404 branch evaluated at a concrete environment. -/
theorem C4_round_trip_classification_witness :
    (doRequest sampleQuery env404 0).1 = DoReqResult.err GoError.errNotFound :=
  (C4_round_trip_classification sampleQuery env404 0 "u" 404 rfl rfl rfl rfl).1 rfl

/-- C7: if the limiter's `Enter` fails, `doRequest` returns the limiter's
error immediately and performs no network call on that try. -/
theorem C7_limiter_reject_no_network (c : HttpQuery) (env : TryEnv) (counter : Nat)
    (u : String) (e : GoError)
    (hparse : env.parseResult = Except.ok u)
    (hreq : env.newRequestResult = Except.ok ())
    (henter : env.enterResult = Except.error e) :
    (doRequest c env counter).1 = DoReqResult.err e ∧
    Event.netCall ∉ (doRequest c env counter).2.1 := by
  constructor <;> simp [doRequest, hparse, hreq, henter]

/-- Witness for C7 at a concrete limiter-rejected environment. -/
theorem C7_limiter_reject_no_network_witness :
    (doRequest sampleQuery envDenied 0).1
        = DoReqResult.err (GoError.limiterError "timeout waiting for a slot") ∧
    Event.netCall ∉ (doRequest sampleQuery envDenied 0).2.1 :=
  C7_limiter_reject_no_network sampleQuery envDenied 0 "u" _ rfl rfl rfl

/-- C1 (code bug): on a completed round trip the code releases the limiter
with `Leave(ctx, server)` — keyed by the picked replica address — although
the slot was acquired with `Enter(ctx, c.groupName)`.  Evaluated on a
dispatcher whose group name `"render"` differs from the replica address,
the trace enters under `"render"` but never leaves under `"render"`; the
release uses the server address instead. -/
theorem C1_leave_uses_server_not_group :
    Event.enter "render" ∈ (doRequest sampleQuery envOk 0).2.1 ∧
    Event.leave "http://b2" ∈ (doRequest sampleQuery envOk 0).2.1 ∧
    Event.leave "render" ∉ (doRequest sampleQuery envOk 0).2.1 := by
  decide

/-- C9 (code bug): when `http.NewRequest` fails it returns a nil request,
and the code calls `req.Header.Set` on it *before* checking the
construction error: a nil-pointer panic, not an early error return.  The
claimed behavior — return the construction error before setting any
header — does not happen: the evaluated result is `panic` and no header
is ever set. -/
theorem C9_nil_request_header_set_panics :
    (doRequest sampleQuery envNilReq 0).1 = DoReqResult.panic ∧
    (doRequest sampleQuery envNilReq 0).2.1 = [] := by
  decide

/-! ## Round-robin arithmetic for the picker -/

lemma mod_shift_inj (N a x y : Nat) (hx : x < N) (hy : y < N)
    (h : (a + x) % N = (a + y) % N) : x = y := by
  have hmod : x % N = y % N := Nat.ModEq.add_left_cancel' a h
  rwa [Nat.mod_eq_of_lt hx, Nat.mod_eq_of_lt hy] at hmod

lemma mod_shift_exists (N a r : Nat) (hN : 0 < N) (hr : r < N) :
    ∃ i, i < N ∧ (a + i) % N = r := by
  refine ⟨(N - a % N + r) % N, Nat.mod_lt _ hN, ?_⟩
  have hle1 : a % N ≤ a := Nat.mod_le a N
  have hle2 : a % N < N := Nat.mod_lt a hN
  have hdm := Nat.div_add_mod a N
  have h1 : a + (N - a % N + r) = N * (a / N) + (N + r) := by omega
  rw [Nat.add_mod_mod, h1, Nat.mul_add_mod, Nat.add_mod_left, Nat.mod_eq_of_lt hr]

lemma filter_mod_block (N r : Nat) (hN : 0 < N) (hr : r < N) (a : Nat) :
    ((Finset.range N).filter (fun i => (a + i) % N = r)).card = 1 := by
  obtain ⟨i0, hi0, hmod⟩ := mod_shift_exists N a r hN hr
  rw [Finset.card_eq_one]
  refine ⟨i0, ?_⟩
  ext x
  simp only [Finset.mem_filter, Finset.mem_range, Finset.mem_singleton]
  constructor
  · rintro ⟨hx, hxm⟩
    exact mod_shift_inj N a x i0 hx hi0 (hxm.trans hmod.symm)
  · rintro rfl
    exact ⟨hi0, hmod⟩

lemma filter_mod_le_one (N r a s : Nat) (hs : s ≤ N) :
    ((Finset.range s).filter (fun i => (a + i) % N = r)).card ≤ 1 := by
  rw [Finset.card_le_one]
  intro x hx y hy
  simp only [Finset.mem_filter, Finset.mem_range] at hx hy
  exact mod_shift_inj N a x y (lt_of_lt_of_le hx.1 hs) (lt_of_lt_of_le hy.1 hs)
    (hx.2.trans hy.2.symm)

lemma filter_mod_split (N r a : Nat) :
    ∀ M, ((Finset.range (N + M)).filter (fun i => (a + i) % N = r)).card
      = ((Finset.range N).filter (fun i => (a + i) % N = r)).card
        + ((Finset.range M).filter (fun i => (a + i) % N = r)).card := by
  intro M
  induction M with
  | zero => simp
  | succ M ih =>
    have h1 : N + (M + 1) = (N + M) + 1 := by omega
    have h2 : a + (N + M) = (a + M) + N := by omega
    rw [h1, Finset.range_succ, Finset.range_succ, Finset.filter_insert, Finset.filter_insert,
      h2, Nat.add_mod_right]
    by_cases hp : (a + M) % N = r
    · rw [if_pos hp, if_pos hp, Finset.card_insert_of_not_mem (by simp),
        Finset.card_insert_of_not_mem (by simp), ih]
      omega
    · rw [if_neg hp, if_neg hp, ih]

lemma filter_mod_fair (N r : Nat) (hN : 0 < N) (hr : r < N) :
    ∀ M a, ((Finset.range M).filter (fun i => (a + i) % N = r)).card = M / N ∨
      (M % N ≠ 0 ∧
        ((Finset.range M).filter (fun i => (a + i) % N = r)).card = M / N + 1) := by
  intro M
  induction M using Nat.strong_induction_on with
  | _ M ih =>
    intro a
    by_cases hM : M < N
    · have hle := filter_mod_le_one N r a M (le_of_lt hM)
      have hdiv : M / N = 0 := Nat.div_eq_of_lt hM
      have hmod : M % N = M := Nat.mod_eq_of_lt hM
      rcases Nat.le_one_iff_eq_zero_or_eq_one.mp hle with h0 | h1
      · left; rw [h0, hdiv]
      · right
        refine ⟨?_, by rw [h1, hdiv]⟩
        rw [hmod]
        rintro rfl
        simp at h1
    · push_neg at hM
      obtain ⟨M', rfl⟩ : ∃ M', M = N + M' := ⟨M - N, by omega⟩
      rw [filter_mod_split, filter_mod_block N r hN hr a]
      have hdiv : (N + M') / N = M' / N + 1 := by
        rw [Nat.add_comm N M', Nat.add_div_right _ hN]
      have hmod : (N + M') % N = M' % N := by
        rw [Nat.add_comm N M', Nat.add_mod_right]
      rcases ih M' (by omega) a with h | ⟨hm, h⟩
      · left; rw [h, hdiv]; omega
      · right; exact ⟨by rwa [hmod], by rw [h, hdiv]; omega⟩

lemma pickSeq_getD (c : HttpQuery) (h2 : 2 ≤ c.servers.length) :
    ∀ (n counter i : Nat), i < n →
      (pickSeq c n counter).1.getD i "" =
        c.servers.getD (((counter + 1 + i) % W64) % c.servers.length) "" := by
  intro n
  induction n with
  | zero => intro counter i h; exact absurd h (by omega)
  | succ n ih =>
    intro counter i h
    have hne : c.servers.length ≠ 1 := by omega
    cases i with
    | zero => simp [pickSeq, pickServer, hne]
    | succ i =>
      have hstep : (pickSeq c (n + 1) counter).1.getD (i + 1) "" =
          (pickSeq c n ((counter + 1) % W64)).1.getD i "" := by
        simp [pickSeq, pickServer, hne]
      rw [hstep, ih ((counter + 1) % W64) i (by omega)]
      congr 2
      rw [Nat.add_assoc, Nat.mod_add_mod]
      congr 1
      omega

/-- C6 (counterexample): the claim "the Nth pickServer call returns replica
N mod count" fails at the `uint64` wraparound of the selection counter.
Starting from a fresh counter, call number `2^64` reads the wrapped counter
value `0`, so with 3 replicas it returns replica index `0`, while
`2^64 mod 3 = 1`. -/
theorem C6_wraparound_counterexample :
    (pickSeq sampleQuery3 (2 ^ 64) 0).1.getD (2 ^ 64 - 1) "" ≠
      sampleQuery3.servers.getD ((2 ^ 64) % sampleQuery3.servers.length) "" := by
  have h := pickSeq_getD sampleQuery3 (by decide) (2 ^ 64) 0 (2 ^ 64 - 1) (by norm_num)
  rw [h]
  decide

/-- C6 (amended): as long as the counter does not wrap around `2^64`
(`counter + M < 2^64`), the `i`-th of `M` consecutive `pickServer` calls
from counter state `counter` returns replica `(counter + 1 + i) mod count`
— in particular the `n`-th call from a fresh dispatcher returns replica
`n mod count` and the sequence follows the replica list cyclically — and
each replica position `r` is selected exactly `⌊M/count⌋` or `⌈M/count⌉`
times over the window. -/
theorem C6_round_robin_no_wrap (c : HttpQuery) (counter M r : Nat)
    (h2 : 2 ≤ c.servers.length) (hwrap : counter + M < W64) (hr : r < c.servers.length) :
    (∀ i, i < M → (pickSeq c M counter).1.getD i "" =
        c.servers.getD ((counter + 1 + i) % c.servers.length) "") ∧
    (((Finset.range M).filter (fun i => (counter + 1 + i) % c.servers.length = r)).card
        = M / c.servers.length ∨
      (M % c.servers.length ≠ 0 ∧
        ((Finset.range M).filter (fun i => (counter + 1 + i) % c.servers.length = r)).card
          = M / c.servers.length + 1)) := by
  constructor
  · intro i hi
    rw [pickSeq_getD c h2 M counter i hi]
    congr 2
    exact Nat.mod_eq_of_lt (by omega)
  · exact filter_mod_fair c.servers.length r (by omega) hr M (counter + 1)

/-- Witness for the amended C6: six calls on a fresh three-replica
dispatcher. -/
theorem C6_round_robin_no_wrap_witness :
    2 ≤ sampleQuery3.servers.length ∧ 0 + 6 < W64 ∧ 1 < sampleQuery3.servers.length ∧
    ((∀ i, i < 6 → (pickSeq sampleQuery3 6 0).1.getD i "" =
        sampleQuery3.servers.getD ((0 + 1 + i) % sampleQuery3.servers.length) "") ∧
     (((Finset.range 6).filter (fun i => (0 + 1 + i) % sampleQuery3.servers.length = 1)).card
         = 6 / sampleQuery3.servers.length ∨
       (6 % sampleQuery3.servers.length ≠ 0 ∧
         ((Finset.range 6).filter (fun i => (0 + 1 + i) % sampleQuery3.servers.length = 1)).card
           = 6 / sampleQuery3.servers.length + 1))) :=
  ⟨by decide, by decide, by decide,
    C6_round_robin_no_wrap sampleQuery3 0 6 1 (by decide) (by decide) (by decide)⟩

/-! ## Retry-loop machinery -/

lemma doRequest_counter (c : HttpQuery) (env : TryEnv) (counter : Nat) :
    (doRequest c env counter).2.2 = (pickServer c counter).2 := by
  rcases env with ⟨p, nr, er, dr, rr⟩
  cases p <;> cases nr <;> cases er <;> cases dr <;> cases rr <;>
    simp only [doRequest] <;> (repeat' split) <;> rfl

lemma pickSeq_counter_succ (c : HttpQuery) (j counter : Nat) :
    (pickSeq c (j + 1) counter).2 = (pickSeq c j ((pickServer c counter).2)).2 := by
  simp [pickSeq]

lemma doQueryLoop_prefix (c : HttpQuery) (envAt : Nat → TryEnv) (ctxErrAt : Nat → Option GoError)
    (er : Nat → GoError) :
    ∀ (j fuel tryIdx : Nat) (acc : List GoError) (counter : Nat) (tr : List Event),
      j ≤ fuel →
      (∀ k, k < j → ∀ cc, (doRequest c (envAt (tryIdx + k)) cc).1
          = DoReqResult.err (er (tryIdx + k))) →
      (∀ k, k < j → ctxErrAt (tryIdx + k) = none) →
      ∃ tr', doQueryLoop c envAt ctxErrAt fuel tryIdx acc counter tr =
        doQueryLoop c envAt ctxErrAt (fuel - j) (tryIdx + j)
          (acc ++ (List.range' tryIdx j).map er) ((pickSeq c j counter).2) tr' := by
  intro j
  induction j with
  | zero =>
    intro fuel tryIdx acc counter tr _ _ _
    exact ⟨tr, by simp [pickSeq]⟩
  | succ j ih =>
    intro fuel tryIdx acc counter tr hj hfail hctx
    obtain ⟨fuel', rfl⟩ : ∃ f, fuel = f + 1 := ⟨fuel - 1, by omega⟩
    have hstep : (doRequest c (envAt tryIdx) counter).1 = DoReqResult.err (er tryIdx) := by
      simpa using hfail 0 (by omega) counter
    have hctx0 : ctxErrAt tryIdx = none := by simpa using hctx 0 (by omega)
    have hloop : doQueryLoop c envAt ctxErrAt (fuel' + 1) tryIdx acc counter tr
        = doQueryLoop c envAt ctxErrAt fuel' (tryIdx + 1) (acc ++ [er tryIdx])
            ((doRequest c (envAt tryIdx) counter).2.2)
            (tr ++ (doRequest c (envAt tryIdx) counter).2.1) := by
      simp [doQueryLoop, hstep, hctx0]
    rw [hloop, doRequest_counter]
    have hfail' : ∀ k, k < j → ∀ cc, (doRequest c (envAt (tryIdx + 1 + k)) cc).1
        = DoReqResult.err (er (tryIdx + 1 + k)) := by
      intro k hk cc
      have h := hfail (k + 1) (by omega) cc
      have he : tryIdx + (k + 1) = tryIdx + 1 + k := by omega
      rwa [he] at h
    have hctx' : ∀ k, k < j → ctxErrAt (tryIdx + 1 + k) = none := by
      intro k hk
      have h := hctx (k + 1) (by omega)
      have he : tryIdx + (k + 1) = tryIdx + 1 + k := by omega
      rwa [he] at h
    obtain ⟨tr', htr⟩ := ih fuel' (tryIdx + 1) (acc ++ [er tryIdx])
      ((pickServer c counter).2) (tr ++ (doRequest c (envAt tryIdx) counter).2.1)
      (by omega) hfail' hctx'
    refine ⟨tr', ?_⟩
    rw [htr]
    have e1 : fuel' - j = fuel' + 1 - (j + 1) := by omega
    have e2 : tryIdx + 1 + j = tryIdx + (j + 1) := by omega
    have e3 : (acc ++ [er tryIdx]) ++ (List.range' (tryIdx + 1) j).map er
        = acc ++ (List.range' tryIdx (j + 1)).map er := by
      simp [List.range'_succ]
    rw [e1, e2, e3, ← pickSeq_counter_succ]

lemma doQueryLoop_slots (c : HttpQuery) (envAt : Nat → TryEnv) (ctxErrAt : Nat → Option GoError) :
    ∀ (fuel tryIdx : Nat) (acc : List GoError) (counter : Nat) (tr : List Event),
      (doQueryLoop c envAt ctxErrAt fuel tryIdx acc counter tr).panicked = true ∨
      (∃ r, (doQueryLoop c envAt ctxErrAt fuel tryIdx acc counter tr).response = some r ∧
        (doQueryLoop c envAt ctxErrAt fuel tryIdx acc counter tr).errs = none) ∨
      ((doQueryLoop c envAt ctxErrAt fuel tryIdx acc counter tr).response = none ∧
        ∃ l, (doQueryLoop c envAt ctxErrAt fuel tryIdx acc counter tr).errs = some l ∧ l ≠ []) := by
  intro fuel
  induction fuel with
  | zero =>
    intro tryIdx acc counter tr
    right; right
    exact ⟨by simp [doQueryLoop], acc ++ [GoError.maxTriesExceeded], by simp [doQueryLoop],
      by simp⟩
  | succ fuel ih =>
    intro tryIdx acc counter tr
    rcases hres : (doRequest c (envAt tryIdx) counter).1 with _ | er | r
    · left
      simp [doQueryLoop, hres]
    · by_cases hctx : (ctxErrAt tryIdx).isSome = true
      · right; right
        exact ⟨by simp [doQueryLoop, hres, hctx], acc ++ [er],
          by simp [doQueryLoop, hres, hctx], by simp⟩
      · have hrec : doQueryLoop c envAt ctxErrAt (fuel + 1) tryIdx acc counter tr
            = doQueryLoop c envAt ctxErrAt fuel (tryIdx + 1) (acc ++ [er])
                ((doRequest c (envAt tryIdx) counter).2.2)
                (tr ++ (doRequest c (envAt tryIdx) counter).2.1) := by
          simp [doQueryLoop, hres, hctx]
        rw [hrec]
        exact ih (tryIdx + 1) (acc ++ [er]) ((doRequest c (envAt tryIdx) counter).2.2)
          (tr ++ (doRequest c (envAt tryIdx) counter).2.1)
    · right; left
      exact ⟨r, by simp [doQueryLoop, hres], by simp [doQueryLoop, hres]⟩

lemma effective_budget (c : HttpQuery) :
    (if c.servers.length > c.maxTries then c.servers.length else c.maxTries)
      = max c.maxTries c.servers.length := by
  by_cases h : c.servers.length > c.maxTries <;> simp [h] <;> omega

lemma DoQuery_eq_loop (c : HttpQuery) (envAt : Nat → TryEnv) (ctxErrAt : Nat → Option GoError)
    (counter : Nat) :
    DoQuery c envAt ctxErrAt counter
      = doQueryLoop c envAt ctxErrAt (max c.maxTries c.servers.length) 0 [] counter [] := by
  simp only [DoQuery]
  rw [effective_budget]

/-! ## Claim theorems: the retry/failover controller -/

/-- C2: with a non-empty replica list, the try budget is
`max(configuredMaxTries, replicaCount)`; when every try fails and the
context is never cancelled, `DoQuery` performs exactly that many tries and
returns a nil response with an aggregate of one entry per failed try plus
the final `maxTriesExceeded` sentinel. -/
theorem C2_exhaustion_budget_and_aggregate (c : HttpQuery) (envAt : Nat → TryEnv)
    (ctxErrAt : Nat → Option GoError) (counter : Nat) (er : Nat → GoError)
    (hne : c.servers ≠ [])
    (hfail : ∀ k, k < max c.maxTries c.servers.length →
      ∀ cc, (doRequest c (envAt k) cc).1 = DoReqResult.err (er k))
    (hctx : ∀ k, ctxErrAt k = none) :
    (DoQuery c envAt ctxErrAt counter).tries = max c.maxTries c.servers.length ∧
    (DoQuery c envAt ctxErrAt counter).response = none ∧
    (DoQuery c envAt ctxErrAt counter).errs =
      some ((List.range (max c.maxTries c.servers.length)).map er
        ++ [GoError.maxTriesExceeded]) := by
  obtain ⟨tr', htr⟩ := doQueryLoop_prefix c envAt ctxErrAt er
    (max c.maxTries c.servers.length) (max c.maxTries c.servers.length) 0 [] counter []
    le_rfl (fun k hk cc => by simpa using hfail k (by simpa using hk) cc)
    (fun k _ => hctx _)
  rw [DoQuery_eq_loop, htr]
  refine ⟨?_, ?_, ?_⟩ <;> simp [Nat.sub_self, doQueryLoop, List.range_eq_range']

/-- Witness for C2: three replicas, configured retry count 1, every try a
404: three tries and a four-entry aggregate ending in the sentinel. -/
theorem C2_exhaustion_budget_and_aggregate_witness :
    sampleQuery3.servers ≠ [] ∧
    (DoQuery sampleQuery3 (fun _ => env404) (fun _ => none) 0).tries
        = max sampleQuery3.maxTries sampleQuery3.servers.length ∧
    (DoQuery sampleQuery3 (fun _ => env404) (fun _ => none) 0).response = none ∧
    (DoQuery sampleQuery3 (fun _ => env404) (fun _ => none) 0).errs =
      some ((List.range (max sampleQuery3.maxTries sampleQuery3.servers.length)).map
          (fun _ => GoError.errNotFound) ++ [GoError.maxTriesExceeded]) :=
  ⟨by decide, C2_exhaustion_budget_and_aggregate sampleQuery3 (fun _ => env404) (fun _ => none) 0
    (fun _ => GoError.errNotFound) (by decide) (fun _ _ _ => rfl) (fun _ => rfl)⟩

/-- C3: after a failed try whose error has been appended, an already
cancelled context stops the loop at once: `DoQuery` returns a nil response
and exactly the errors of the tries performed — no `maxTriesExceeded`
sentinel — even though try budget remains. -/
theorem C3_cancellation_short_circuit (c : HttpQuery) (envAt : Nat → TryEnv)
    (ctxErrAt : Nat → Option GoError) (counter j : Nat) (ce : GoError) (er : Nat → GoError)
    (hj : j < max c.maxTries c.servers.length)
    (hfail : ∀ k, k ≤ j → ∀ cc, (doRequest c (envAt k) cc).1 = DoReqResult.err (er k))
    (hctx : ∀ k, k < j → ctxErrAt k = none)
    (hcancel : ctxErrAt j = some ce) :
    (DoQuery c envAt ctxErrAt counter).tries = j + 1 ∧
    (DoQuery c envAt ctxErrAt counter).response = none ∧
    (DoQuery c envAt ctxErrAt counter).errs = some ((List.range (j + 1)).map er) := by
  obtain ⟨tr', htr⟩ := doQueryLoop_prefix c envAt ctxErrAt er j
    (max c.maxTries c.servers.length) 0 [] counter []
    (by omega) (fun k hk cc => by simpa using hfail k (by omega) cc)
    (fun k hk => by simpa using hctx k (by simpa using hk))
  obtain ⟨f, hf⟩ : ∃ f, max c.maxTries c.servers.length - j = f + 1 :=
    ⟨max c.maxTries c.servers.length - j - 1, by omega⟩
  have hstep : (doRequest c (envAt j) ((pickSeq c j counter).2)).1 = DoReqResult.err (er j) :=
    hfail j le_rfl _
  rw [DoQuery_eq_loop, htr, hf]
  refine ⟨?_, ?_, ?_⟩ <;>
    simp [doQueryLoop, hstep, hcancel, ← List.range_eq_range', List.range_succ]

/-- Witness for C3: the context is already cancelled when the first try
fails, so exactly one try happens and the aggregate has one entry. -/
theorem C3_cancellation_short_circuit_witness :
    0 < max sampleQuery3.maxTries sampleQuery3.servers.length ∧
    (DoQuery sampleQuery3 (fun _ => envTransport) (fun _ => some GoError.contextCanceled) 0).tries
        = 0 + 1 ∧
    (DoQuery sampleQuery3 (fun _ => envTransport) (fun _ => some GoError.contextCanceled) 0).response
        = none ∧
    (DoQuery sampleQuery3 (fun _ => envTransport) (fun _ => some GoError.contextCanceled) 0).errs
        = some ((List.range (0 + 1)).map (fun _ => GoError.transportError "refused")) :=
  ⟨by decide, C3_cancellation_short_circuit sampleQuery3 (fun _ => envTransport)
    (fun _ => some GoError.contextCanceled) 0 0 GoError.contextCanceled
    (fun _ => GoError.transportError "refused") (by decide) (fun _ _ _ => rfl)
    (fun k hk => absurd hk (by omega)) rfl⟩

/-- C10: a context already cancelled at `DoQuery` entry still yields
exactly one try: the limiter rejects it, its error becomes the sole entry
of the aggregate, and no sentinel is appended. -/
theorem C10_cancelled_at_entry_single_try (c : HttpQuery) (envAt : Nat → TryEnv)
    (ctxErrAt : Nat → Option GoError) (counter : Nat) (ce ce' : GoError) (u : String)
    (hne : c.servers ≠ [])
    (hcancel : ctxErrAt 0 = some ce)
    (hparse : (envAt 0).parseResult = Except.ok u)
    (hreq : (envAt 0).newRequestResult = Except.ok ())
    (henter : (envAt 0).enterResult = Except.error ce') :
    (DoQuery c envAt ctxErrAt counter).tries = 1 ∧
    (DoQuery c envAt ctxErrAt counter).response = none ∧
    (DoQuery c envAt ctxErrAt counter).errs = some [ce'] := by
  have hlen : c.servers.length ≠ 0 := fun h => hne (List.eq_nil_of_length_eq_zero h)
  obtain ⟨f, hf⟩ : ∃ f, max c.maxTries c.servers.length = f + 1 :=
    ⟨max c.maxTries c.servers.length - 1, by omega⟩
  have hstep : (doRequest c (envAt 0) counter).1 = DoReqResult.err ce' := by
    simp [doRequest, hparse, hreq, henter]
  rw [DoQuery_eq_loop, hf]
  refine ⟨?_, ?_, ?_⟩ <;> simp [doQueryLoop, hstep, hcancel]

/-- Witness for C10 with the limiter rejecting under a cancelled context. -/
theorem C10_cancelled_at_entry_single_try_witness :
    sampleQuery.servers ≠ [] ∧
    (DoQuery sampleQuery (fun _ => envDenied) (fun _ => some GoError.contextCanceled) 0).tries
        = 1 ∧
    (DoQuery sampleQuery (fun _ => envDenied) (fun _ => some GoError.contextCanceled) 0).response
        = none ∧
    (DoQuery sampleQuery (fun _ => envDenied) (fun _ => some GoError.contextCanceled) 0).errs
        = some [GoError.limiterError "timeout waiting for a slot"] :=
  ⟨by decide, C10_cancelled_at_entry_single_try sampleQuery (fun _ => envDenied)
    (fun _ => some GoError.contextCanceled) 0 GoError.contextCanceled
    (GoError.limiterError "timeout waiting for a slot") "u" (by decide) rfl rfl rfl rfl⟩

/-- C5: a non-panicking `DoQuery` call populates exactly one return slot —
a response with nil errors, or a nil response with a non-empty aggregate —
and when a later try succeeds after earlier failed tries, the successful
try's response is returned with nil errors (all accumulated failures are
discarded). -/
theorem C5_exactly_one_slot (c : HttpQuery) (envAt : Nat → TryEnv)
    (ctxErrAt : Nat → Option GoError) (counter : Nat)
    (h : (DoQuery c envAt ctxErrAt counter).panicked = false) :
    ((∃ r, (DoQuery c envAt ctxErrAt counter).response = some r ∧
        (DoQuery c envAt ctxErrAt counter).errs = none) ∨
      ((DoQuery c envAt ctxErrAt counter).response = none ∧
        ∃ l, (DoQuery c envAt ctxErrAt counter).errs = some l ∧ l ≠ [])) ∧
    (∀ (j : Nat) (er : Nat → GoError) (rr : ServerResponse),
      j < max c.maxTries c.servers.length →
      (∀ k, k < j → ∀ cc, (doRequest c (envAt k) cc).1 = DoReqResult.err (er k)) →
      (∀ k, k < j → ctxErrAt k = none) →
      (doRequest c (envAt j) ((pickSeq c j counter).2)).1 = DoReqResult.ok rr →
      (DoQuery c envAt ctxErrAt counter).response = some rr ∧
      (DoQuery c envAt ctxErrAt counter).errs = none) := by
  constructor
  · have hs := doQueryLoop_slots c envAt ctxErrAt
      (max c.maxTries c.servers.length) 0 [] counter []
    rw [DoQuery_eq_loop] at h
    rcases hs with hp | hok | hfaill
    · rw [h] at hp
      exact Bool.noConfusion hp
    · left
      rw [DoQuery_eq_loop]
      exact hok
    · right
      rw [DoQuery_eq_loop]
      exact hfaill
  · intro j er rr hj hfailpre hctxpre hok
    obtain ⟨tr', htr⟩ := doQueryLoop_prefix c envAt ctxErrAt er j
      (max c.maxTries c.servers.length) 0 [] counter []
      (by omega) (fun k hk cc => by simpa using hfailpre k (by simpa using hk) cc)
      (fun k hk => by simpa using hctxpre k (by simpa using hk))
    obtain ⟨f, hf⟩ : ∃ f, max c.maxTries c.servers.length - j = f + 1 :=
      ⟨max c.maxTries c.servers.length - j - 1, by omega⟩
    constructor <;> rw [DoQuery_eq_loop, htr, hf] <;> simp [doQueryLoop, hok]

/-- Witness for C5: two transport failures then a success on the third
try; the third replica's response comes back with nil errors. -/
theorem C5_exactly_one_slot_witness :
    (DoQuery sampleQuery3 (fun k => if k < 2 then envTransport else envOk)
        (fun _ => none) 0).panicked = false ∧
    (DoQuery sampleQuery3 (fun k => if k < 2 then envTransport else envOk)
        (fun _ => none) 0).response = some ⟨"http://b1", [7, 8]⟩ ∧
    (DoQuery sampleQuery3 (fun k => if k < 2 then envTransport else envOk)
        (fun _ => none) 0).errs = none :=
  ⟨by decide,
    (C5_exactly_one_slot sampleQuery3 (fun k => if k < 2 then envTransport else envOk)
        (fun _ => none) 0 (by decide)).2 2
      (fun _ => GoError.transportError "refused") ⟨"http://b1", [7, 8]⟩ (by decide)
      (fun k hk cc => by interval_cases k <;> rfl) (fun _ _ => rfl) (by decide)⟩
